import Mathlib

/-!
Verification of the Chat_App repository (TCP chat server + client).

Shallow embedding of:
- `src/server/server.py` (`handle_client` action dispatch, broadcast loop,
  per-read line splitting, `finally` registry cleanup),
- `src/server/db.py` (`create_user`, `verify_user`, `save_message`,
  `get_messages_after`),
- `src/client/client.py` (`receiver_loop` push/poll handling and the
  `last_message_id` watermark).

Machine-level details abstracted: sockets are connection handles (`Nat`)
whose `sendall` either succeeds or raises (modelled by the `dead` oracle in
`Ext`); password hashing, the SQL engine's clock and JSON text parsing are
external capabilities.  A parsed line either yields a JSON object
(`WireLine.ok`) or raises `json.JSONDecodeError` (`WireLine.bad`).
Python exceptions are modelled by the `err` field of `StepResult`: a `some`
value means the exception propagates out of the `while` loop of
`handle_client` into its `finally` block, terminating the session.
-/

namespace ChatApp

/-- A row of the `messages` table (`models.py`): auto-increment `id`,
non-nullable `sender`, `receiver` (always "ALL"), `text`, and a timestamp
rendered to a string by the server (`str(m.timestamp)`). -/
structure StoredMsg where
  id : Nat
  sender : String
  receiver : String
  text : String
  timestamp : String
deriving DecidableEq

/-- The `ORDER BY Message.id ASC` order used by `get_messages_after`. -/
def byId (a b : StoredMsg) : Prop := a.id ≤ b.id

instance : DecidableRel byId := fun a b => inferInstanceAs (Decidable (a.id ≤ b.id))

instance : IsTotal StoredMsg byId := ⟨fun a b => Nat.le_total a.id b.id⟩

instance : IsTrans StoredMsg byId := ⟨fun _ _ _ h h2 => Nat.le_trans h h2⟩

/-- `db.py::get_messages_after`: all stored messages with `id > last_id`,
ordered ascending by `id` (`filter(Message.id > last_id).order_by(Message.id.asc())`). -/
def get_messages_after (db : List StoredMsg) (last_id : Nat) : List StoredMsg :=
  List.insertionSort byId (db.filter (fun m => last_id < m.id))

/-- One element of the `poll` response list built in `server.py` lines 100-107:
`{"id": m.id, "sender": m.sender, "content": m.text, "timestamp": str(m.timestamp)}`. -/
structure PollEntry where
  id : Nat
  sender : String
  content : String
  timestamp : String
deriving DecidableEq

/-- The dict the server builds from a stored message in the poll branch. -/
def toEntry (m : StoredMsg) : PollEntry :=
  { id := m.id, sender := m.sender, content := m.text, timestamp := m.timestamp }

/-- A server-to-client JSON event (`send_json` payloads of `server.py`).
`newMessage` carries the fields id / "from" / content / timestamp. -/
inductive ServerEvent where
  | registerResp (success : Bool) (info : String)
  | loginResp (success : Bool)
  | newMessage (id : Nat) (sender : String) (content : String) (timestamp : String)
  | pollResp (messages : List PollEntry)
  | errorResp (info : String)
deriving DecidableEq

/-- A client-to-server JSON object as read by `handle_client`: each field is
`none` when the key is absent (`msg.get(...)` / `msg["..."]` raising KeyError). -/
structure ClientMsg where
  action : Option String
  username : Option String
  password : Option String
  content : Option String
  last_id : Option Nat
deriving DecidableEq

/-- External capabilities: which connection handles raise on write
(`sendall` to a gone peer), password hashing (`werkzeug`), and the DB clock
rendering the timestamp stored for message id `n`. -/
structure Ext where
  dead : Nat → Bool
  hashp : String → String
  checkp : String → String → Bool
  clock : Nat → String

/-- Server-wide mutable state: the `clients` registry (a Python dict:
insertion-ordered association list with unique keys), the `users` table
(username, password hash), the `messages` table and the next auto-increment id. -/
structure ServerState where
  clients : List (String × Nat)
  users : List (String × String)
  db : List StoredMsg
  nextId : Nat
deriving DecidableEq

/-- Python exceptions that can escape the body of `handle_client`'s loop. -/
inductive SrvError where
  | jsonError
  | keyError
  | writeError (conn : Nat)
  | dbError
deriving DecidableEq

/-- Result of processing input on one session: the session's `username`
variable, the new server state, the `send_json` writes performed (in order,
as pairs of target handle and event), and the exception raised, if any.
`err = some e` means the exception reaches `finally` and the session dies. -/
structure StepResult where
  username : Option String
  state : ServerState
  writes : List (Nat × ServerEvent)
  err : Option SrvError
deriving DecidableEq

/-- `k in d` for a Python dict rendered as an association list. -/
def dictContains (d : List (String × Nat)) (k : String) : Bool :=
  d.any (fun p => p.1 = k)

/-- `d[k] = v`: update in place if the key exists, else append (dict order). -/
def dictInsert (d : List (String × Nat)) (k : String) (v : Nat) : List (String × Nat) :=
  if dictContains d k then d.map (fun p => if p.1 = k then (k, v) else p)
  else d ++ [(k, v)]

/-- `del d[k]`. -/
def dictErase (d : List (String × Nat)) (k : String) : List (String × Nat) :=
  d.filter (fun p => p.1 ≠ k)

/-- `db.py::create_user`: fail if the username exists, else store the hash.
Returns the `(ok, info)` pair and the new users table. -/
def create_user (ext : Ext) (users : List (String × String)) (u p : String) :
    Bool × String × List (String × String) :=
  if users.any (fun q => q.1 = u) then (false, "Username already exists", users)
  else (true, "User created successfully", users ++ [(u, ext.hashp p)])

/-- `db.py::verify_user`: look the user up, then check the password hash. -/
def verify_user (ext : Ext) (users : List (String × String)) (u p : String) : Bool :=
  match users.find? (fun q => q.1 = u) with
  | none => false
  | some q => ext.checkp p q.2

/-- `db.py::save_message`: insert a row with `receiver="ALL"` and the next
auto-increment id.  The `sender` column is `nullable=False`, so committing
with a `None` sender (an unauthenticated session) raises `IntegrityError`,
modelled as `none`. -/
def save_message (ext : Ext) (sender : Option String) (content : String)
    (st : ServerState) : Option (Nat × String × ServerState) :=
  match sender with
  | none => none
  | some s =>
    let mid := st.nextId
    let ts := ext.clock mid
    some (mid, ts,
      { st with db := st.db ++ [⟨mid, s, "ALL", content, ts⟩], nextId := mid + 1 })

/-- `send_json(conn, ev)`: one write, raising if the peer is gone. -/
def send1 (ext : Ext) (conn : Nat) (ev : ServerEvent) :
    List (Nat × ServerEvent) × Option SrvError :=
  if ext.dead conn then ([], some (.writeError conn)) else ([(conn, ev)], none)

/-- The broadcast loop of `server.py` lines 86-93: `send_json` to each handle
of `clients.values()` in dict order; the first failing write raises and the
loop is abandoned (there is no try/except around it). -/
def broadcastWrites (ext : Ext) (handles : List Nat) (ev : ServerEvent) :
    List (Nat × ServerEvent) × Option SrvError :=
  match handles with
  | [] => ([], none)
  | h :: t =>
    if ext.dead h then ([], some (.writeError h))
    else
      let r := broadcastWrites ext t ev
      ((h, ev) :: r.1, r.2)

/-- The action dispatch of `handle_client` (`server.py` lines 57-113) on one
parsed JSON object, given the session's current `username`. -/
def handleAction (ext : Ext) (conn : Nat) (username : Option String)
    (msg : ClientMsg) (st : ServerState) : StepResult :=
  match msg.action with
  | some "register" =>
    match msg.username, msg.password with
    | some user, some pasw =>
      let r := create_user ext st.users user pasw
      let s := send1 ext conn (.registerResp r.1 r.2.1)
      { username := username, state := { st with users := r.2.2 },
        writes := s.1, err := s.2 }
    | _, _ => { username := username, state := st, writes := [], err := some .keyError }
  | some "login" =>
    match msg.username, msg.password with
    | some user, some pasw =>
      if verify_user ext st.users user pasw then
        let s := send1 ext conn (.loginResp true)
        { username := some user,
          state := { st with clients := dictInsert st.clients user conn },
          writes := s.1, err := s.2 }
      else
        let s := send1 ext conn (.loginResp false)
        { username := username, state := st, writes := s.1, err := s.2 }
    | _, _ => { username := username, state := st, writes := [], err := some .keyError }
  | some "send_message" =>
    match msg.content with
    | none => { username := username, state := st, writes := [], err := some .keyError }
    | some content =>
      match save_message ext username content st with
      | none => { username := username, state := st, writes := [], err := some .dbError }
      | some (mid, ts, st2) =>
        let ev := ServerEvent.newMessage mid (username.getD "") content ts
        let b := broadcastWrites ext (st2.clients.map (fun p => p.2)) ev
        { username := username, state := st2, writes := b.1, err := b.2 }
  | some "poll" =>
    let last_id := msg.last_id.getD 0
    let response := (get_messages_after st.db last_id).map toEntry
    let s := send1 ext conn (.pollResp response)
    { username := username, state := st, writes := s.1, err := s.2 }
  | _ =>
    let s := send1 ext conn (.errorResp "Unsupported action")
    { username := username, state := st, writes := s.1, err := s.2 }

/-- One line of a server read after `data.strip().split("\n")`:
either it parses as JSON (`ok`) or `json.loads` raises (`bad`). -/
inductive WireLine where
  | ok (msg : ClientMsg)
  | bad

/-- The per-read loop of `handle_client` (`server.py` lines 54-113): each line
handled in sequence; the first exception (there is no try/except) stops
processing and propagates. -/
def processLines (ext : Ext) (conn : Nat) :
    List WireLine → Option String → ServerState → StepResult
  | [], username, st => { username := username, state := st, writes := [], err := none }
  | WireLine.bad :: _, username, st =>
    { username := username, state := st, writes := [], err := some .jsonError }
  | WireLine.ok msg :: rest, username, st =>
    let r := handleAction ext conn username msg st
    match r.err with
    | some _ => r
    | none =>
      let r2 := processLines ext conn rest r.username r.state
      { username := r2.username, state := r2.state,
        writes := r.writes ++ r2.writes, err := r2.err }

/-- The `finally` block of `handle_client` (`server.py` lines 114-117):
`if username and username in clients: del clients[username]`.
Note: it never compares the registry entry's handle with this session's
connection. -/
def cleanup (username : Option String) (clients : List (String × Nat)) :
    List (String × Nat) :=
  match username with
  | none => clients
  | some u => if u ≠ "" ∧ dictContains clients u then dictErase clients u else clients

/-! ### Client (`src/client/client.py`, `receiver_loop`) -/

/-- A server-to-client JSON object as read by the client: each field is
`none` when the key is absent (the code then applies `.get` defaults).
`sender` models both the push path's `"from"` key and the poll entries'
`"sender"` key. -/
structure WireMsg where
  sender : Option String
  content : Option String
  timestamp : Option String
  id : Option Nat
deriving DecidableEq

/-- One `print` of a chat line by `receiver_loop`, with the branch that
produced it (`viaPush` records push path vs poll path). -/
structure RenderedMsg where
  id : Nat
  sender : String
  content : String
  viaPush : Bool
deriving DecidableEq

/-- Client receiver state: the `last_message_id` watermark and the chat
lines rendered so far, in order. -/
structure ClientState where
  last_message_id : Nat
  rendered : List RenderedMsg
deriving DecidableEq

/-- An event parsed by `receiver_loop`: a `new_message` push, a `poll`
response carrying a message list, or any other response (ignored). -/
inductive ClientEvent where
  | newMessage (w : WireMsg)
  | pollBatch (msgs : List WireMsg)
  | other

/-- The poll branch of `receiver_loop` (`client.py` lines 116-129): for each
entry, render and advance the watermark when `id > last_message_id`,
regardless of sender. -/
def processPoll : List WireMsg → ClientState → ClientState
  | [], st => st
  | m :: rest, st =>
    let mid := m.id.getD 0
    let st2 :=
      if st.last_message_id < mid then
        { last_message_id := mid,
          rendered := st.rendered ++
            [⟨mid, m.sender.getD "???", m.content.getD "", false⟩] }
      else st
    processPoll rest st2

/-- One iteration of `receiver_loop` on a parsed event (`client.py` lines
99-129).  Push path: when `id > last_message_id`, render only if the sender
differs from `current_username`, then advance the watermark either way. -/
def clientStep (self : String) (st : ClientState) (ev : ClientEvent) : ClientState :=
  match ev with
  | ClientEvent.newMessage m =>
    let mid := m.id.getD 0
    if st.last_message_id < mid then
      { last_message_id := mid,
        rendered :=
          if m.sender.getD "???" ≠ self then
            st.rendered ++ [⟨mid, m.sender.getD "???", m.content.getD "", true⟩]
          else st.rendered }
    else st
  | ClientEvent.pollBatch msgs => processPoll msgs st
  | ClientEvent.other => st

/-- Run the receiver over a sequence of parsed events from the initial state
(`last_message_id = 0`, nothing rendered). -/
def runClient (self : String) (events : List ClientEvent) : ClientState :=
  events.foldl (clientStep self) { last_message_id := 0, rendered := [] }

/-- The wire form of a broadcast for a stored message
(`server.py` lines 87-93). -/
def pushWire (m : StoredMsg) : WireMsg :=
  { sender := some m.sender, content := some m.text,
    timestamp := some m.timestamp, id := some m.id }

/-- The wire form of a poll response entry. -/
def entryWire (e : PollEntry) : WireMsg :=
  { sender := some e.sender, content := some e.content,
    timestamp := some e.timestamp, id := some e.id }

/-- An event the receiver can actually see, given the message store: a push
of a stored message, a poll response whose entries all come from the store,
or an unrelated response. -/
def ValidEvent (store : List StoredMsg) : ClientEvent → Prop
  | ClientEvent.newMessage w => ∃ m ∈ store, w = pushWire m
  | ClientEvent.pollBatch msgs => ∀ w ∈ msgs, ∃ m ∈ store, w = pushWire m
  | ClientEvent.other => True

/-- The receiver-state invariant behind the dedup law: rendered ids are
strictly increasing in render order (hence no message is ever rendered
twice), every rendered id is at or below the watermark, nothing rendered on
the push path carries the client's own username, and every rendered line
comes from a stored message. -/
def Inv (self : String) (store : List StoredMsg) (st : ClientState) : Prop :=
  List.Pairwise (· < ·) (st.rendered.map (fun r => r.id))
  ∧ (∀ r ∈ st.rendered, r.id ≤ st.last_message_id)
  ∧ (∀ r ∈ st.rendered, r.viaPush = true → r.sender ≠ self)
  ∧ (∀ r ∈ st.rendered, ∃ m ∈ store, r.id = m.id ∧ r.sender = m.sender ∧ r.content = m.text)

/-! ### Concrete fixtures -/

/-- All connection handles alive; hashing is the identity, so a user row
`(u, p)` is verified by password `p`. -/
def extLive : Ext :=
  { dead := fun _ => false, hashp := fun p => p,
    checkp := fun p h => p == h, clock := fun _ => "T" }

/-- Same, except connection handle 2 is gone: writing to it raises. -/
def extDead2 : Ext :=
  { dead := fun h => h == 2, hashp := fun p => p,
    checkp := fun p h => p == h, clock := fun _ => "T" }

/-- A store holding exactly the message ids [1, 2, 3]. -/
def store3 : List StoredMsg :=
  [⟨1, "a", "ALL", "m1", "t1"⟩, ⟨2, "b", "ALL", "m2", "t2"⟩, ⟨3, "c", "ALL", "m3", "t3"⟩]

/-- A store of three messages from sender "a" (used against client "me"). -/
def storeA : List StoredMsg :=
  [⟨1, "a", "ALL", "m1", "t1"⟩, ⟨2, "a", "ALL", "m2", "t2"⟩, ⟨3, "a", "ALL", "m3", "t3"⟩]

/-- A genuine interleaving against `storeA`: the push of message 3 is
processed before the response to the client's very first poll
(`last_id = 0`) arrives. -/
def evsA : List ClientEvent :=
  [ClientEvent.newMessage (pushWire ⟨3, "a", "ALL", "m3", "t3"⟩),
   ClientEvent.pollBatch ((get_messages_after storeA 0).map (fun m => entryWire (toEntry m)))]

/-- A parsed `{"action": "poll", "last_id": ...}` object. -/
def pollMsg (lastid : Option Nat) : ClientMsg := ⟨some "poll", none, none, none, lastid⟩

/-- A parsed `{"action": "send_message", "content": ...}` object. -/
def sendMsg (content : String) : ClientMsg := ⟨some "send_message", none, none, some content, none⟩

/-- A parsed `{"action": "login", "username": ..., "password": ...}` object. -/
def loginMsg (u p : String) : ClientMsg := ⟨some "login", some u, some p, none, none⟩

/-- A server state whose store holds one message from "a", no users and an
empty registry. -/
def dbHello : ServerState := ⟨[], [], [⟨1, "a", "ALL", "hello", "t1"⟩], 2⟩

/-! ### Client watermark and invariant lemmas -/

lemma processPoll_mono (msgs : List WireMsg) :
    ∀ st : ClientState, st.last_message_id ≤ (processPoll msgs st).last_message_id := by
  induction msgs with
  | nil => intro st; exact Nat.le_refl _
  | cons m rest ih =>
    intro st
    show st.last_message_id ≤ (processPoll rest _).last_message_id
    refine Nat.le_trans ?_ (ih _)
    dsimp only
    split
    · exact Nat.le_of_lt (by assumption)
    · exact Nat.le_refl _

lemma clientStep_mono (self : String) (st : ClientState) (ev : ClientEvent) :
    st.last_message_id ≤ (clientStep self st ev).last_message_id := by
  cases ev with
  | newMessage m =>
    show st.last_message_id ≤ (if _ then _ else _ : ClientState).last_message_id
    split
    · exact Nat.le_of_lt (by assumption)
    · exact Nat.le_refl _
  | pollBatch msgs => exact processPoll_mono msgs st
  | other => exact Nat.le_refl _

lemma Inv.advance (self : String) (store : List StoredMsg) (st : ClientState) (mid : Nat)
    (h : Inv self store st) (hlt : st.last_message_id < mid) :
    Inv self store ⟨mid, st.rendered⟩ := by
  obtain ⟨h1, h2, h3, h4⟩ := h
  exact ⟨h1, fun r hr => Nat.le_trans (h2 r hr) (Nat.le_of_lt hlt), h3, h4⟩

lemma Inv.append (self : String) (store : List StoredMsg) (st : ClientState)
    (mid : Nat) (s c : String) (vp : Bool)
    (h : Inv self store st) (hlt : st.last_message_id < mid)
    (hvp : vp = true → s ≠ self)
    (hm : ∃ m ∈ store, mid = m.id ∧ s = m.sender ∧ c = m.text) :
    Inv self store ⟨mid, st.rendered ++ [⟨mid, s, c, vp⟩]⟩ := by
  obtain ⟨h1, h2, h3, h4⟩ := h
  refine ⟨?_, ?_, ?_, ?_⟩
  · rw [List.map_append, List.pairwise_append]
    refine ⟨h1, List.pairwise_singleton _ _, ?_⟩
    intro a ha b hb
    simp only [List.map_cons, List.map_nil, List.mem_singleton] at hb
    subst hb
    obtain ⟨r, hr, rfl⟩ := List.mem_map.mp ha
    exact Nat.lt_of_le_of_lt (h2 r hr) hlt
  · intro r hr
    rcases List.mem_append.mp hr with hr | hr
    · exact Nat.le_trans (h2 r hr) (Nat.le_of_lt hlt)
    · simp only [List.mem_singleton] at hr; subst hr; exact Nat.le_refl _
  · intro r hr
    rcases List.mem_append.mp hr with hr | hr
    · exact h3 r hr
    · simp only [List.mem_singleton] at hr; subst hr; exact hvp
  · intro r hr
    rcases List.mem_append.mp hr with hr | hr
    · exact h4 r hr
    · simp only [List.mem_singleton] at hr; subst hr; exact hm

lemma processPoll_inv (self : String) (store : List StoredMsg) (msgs : List WireMsg)
    (hmsgs : ∀ w ∈ msgs, ∃ m ∈ store, w = pushWire m) :
    ∀ st : ClientState, Inv self store st → Inv self store (processPoll msgs st) := by
  induction msgs with
  | nil => intro st h; exact h
  | cons m rest ih =>
    intro st h
    show Inv self store (processPoll rest _)
    refine ih (fun w hw => hmsgs w (List.mem_cons_of_mem _ hw)) _ ?_
    dsimp only
    split
    · obtain ⟨m', hm', rfl⟩ := hmsgs m (List.mem_cons_self _ _)
      exact Inv.append self store st _ _ _ _ h (by assumption) (fun hf => nomatch hf)
        ⟨m', hm', by simp [pushWire]⟩
    · exact h

lemma clientStep_inv (self : String) (store : List StoredMsg) (st : ClientState)
    (ev : ClientEvent) (hv : ValidEvent store ev) (h : Inv self store st) :
    Inv self store (clientStep self st ev) := by
  cases ev with
  | newMessage w =>
    obtain ⟨m, hm, rfl⟩ := hv
    show Inv self store (if _ then _ else _)
    split
    · split
      · exact Inv.append self store st _ _ _ _ h (by assumption)
          (fun _ => by simpa [pushWire] using by assumption) ⟨m, hm, by simp [pushWire]⟩
      · exact Inv.advance self store st _ h (by assumption)
    · exact h
  | pollBatch msgs => exact processPoll_inv self store msgs hv st h
  | other => exact h

lemma runClient_inv (self : String) (store : List StoredMsg) (events : List ClientEvent)
    (hv : ∀ ev ∈ events, ValidEvent store ev) :
    Inv self store (runClient self events) := by
  have key : ∀ (l : List ClientEvent) (st0 : ClientState),
      (∀ ev ∈ l, ValidEvent store ev) → Inv self store st0 →
      Inv self store (l.foldl (clientStep self) st0) := by
    intro l
    induction l with
    | nil => intro st0 _ h; exact h
    | cons ev rest ih =>
      intro st0 hvl h
      exact ih _ (fun e he => hvl e (List.mem_cons_of_mem _ he))
        (clientStep_inv self store st0 ev (hvl ev (List.mem_cons_self _ _)) h)
  refine key events _ hv ⟨List.Pairwise.nil, ?_, ?_, ?_⟩ <;> intro r hr <;> cases hr

/-! ### Claim C1 (corrected) -/

/-- C1, counterexample.  A genuine interleaving over `storeA` (push of stored
message 3, then the response to the client's first poll with `last_id = 0`,
which is exactly `get_messages_after storeA 0`) ends with watermark 3, yet
stored message 2 — whose sender "a" is not the client "me", so the echo
exception does not apply — is never rendered at all: the rendered set for
ids at or below the final watermark is a strict subset of the stored set. -/
theorem C1_counterexample :
    (∀ ev ∈ evsA, ValidEvent storeA ev)
    ∧ (runClient "me" evsA).last_message_id = 3
    ∧ (⟨2, "a", "ALL", "m2", "t2"⟩ : StoredMsg) ∈ storeA
    ∧ (2 : Nat) ≤ (runClient "me" evsA).last_message_id
    ∧ "a" ≠ "me"
    ∧ (∀ r ∈ (runClient "me" evsA).rendered, r.id ≠ 2) := by
  refine ⟨?_, by decide, by decide, by decide, by decide, by decide⟩
  intro ev hev
  have hpoll : (get_messages_after storeA 0).map (fun m => entryWire (toEntry m))
      = [pushWire ⟨1, "a", "ALL", "m1", "t1"⟩, pushWire ⟨2, "a", "ALL", "m2", "t2"⟩,
         pushWire ⟨3, "a", "ALL", "m3", "t3"⟩] := by decide
  simp only [evsA, List.mem_cons, List.not_mem_nil, or_false] at hev
  rcases hev with rfl | rfl
  · exact ⟨⟨3, "a", "ALL", "m3", "t3"⟩, by decide, rfl⟩
  · rw [hpoll]
    intro w hw
    simp only [List.mem_cons, List.not_mem_nil, or_false] at hw
    rcases hw with rfl | rfl | rfl
    · exact ⟨⟨1, "a", "ALL", "m1", "t1"⟩, by decide, rfl⟩
    · exact ⟨⟨2, "a", "ALL", "m2", "t2"⟩, by decide, rfl⟩
    · exact ⟨⟨3, "a", "ALL", "m3", "t3"⟩, by decide, rfl⟩

/-- C1, amended.  Over every interleaving of `new_message` and `poll` events
drawn from the store, the receiver renders each message at most once (the
rendered ids are strictly increasing in render order), every rendered id is
at or below the final watermark, every rendered line comes from a stored
message with that id, sender and body, and a message whose sender equals the
client's own username is never rendered via the push path.  (The set
equality of the original claim fails: a push can advance the watermark past
ids the client has never rendered, which every later poll then skips — see
the counterexample.) -/
theorem C1_dedup_amended (self : String) (store : List StoredMsg)
    (events : List ClientEvent) (hv : ∀ ev ∈ events, ValidEvent store ev) :
    List.Pairwise (· < ·) ((runClient self events).rendered.map (fun r => r.id))
    ∧ (∀ r ∈ (runClient self events).rendered,
        r.id ≤ (runClient self events).last_message_id)
    ∧ (∀ r ∈ (runClient self events).rendered, r.viaPush = true → r.sender ≠ self)
    ∧ (∀ r ∈ (runClient self events).rendered,
        ∃ m ∈ store, r.id = m.id ∧ r.sender = m.sender ∧ r.content = m.text) :=
  runClient_inv self store events hv

/-- C1, witness for the amended theorem at a concrete input. -/
theorem C1_dedup_amended_witness :
    List.Pairwise (· < ·)
      ((runClient "me" [ClientEvent.newMessage (pushWire ⟨1, "a", "ALL", "x", "t"⟩)]).rendered.map
        (fun r => r.id)) :=
  (C1_dedup_amended "me" [⟨1, "a", "ALL", "x", "t"⟩]
    [ClientEvent.newMessage (pushWire ⟨1, "a", "ALL", "x", "t"⟩)]
    (by
      intro ev hev
      simp only [List.mem_singleton] at hev
      subst hev
      exact ⟨⟨1, "a", "ALL", "x", "t"⟩, List.mem_singleton_self _, rfl⟩)).1

/-! ### Claim C7 (confirmed) -/

/-- C7.  A `new_message` event whose id is at or below the watermark leaves
the client state entirely unchanged; one whose id exceeds the watermark
advances the watermark to that id and renders the message exactly when its
sender differs from the client's own username (an own message advances the
watermark without being rendered). -/
theorem C7_push_handling (self : String) (st : ClientState) (w : WireMsg) :
    (w.id.getD 0 ≤ st.last_message_id →
      clientStep self st (ClientEvent.newMessage w) = st)
    ∧ (st.last_message_id < w.id.getD 0 →
      (clientStep self st (ClientEvent.newMessage w)).last_message_id = w.id.getD 0
      ∧ (clientStep self st (ClientEvent.newMessage w)).rendered =
        (if w.sender.getD "???" ≠ self then
          st.rendered ++ [⟨w.id.getD 0, w.sender.getD "???", w.content.getD "", true⟩]
        else st.rendered)) := by
  constructor
  · intro h
    show (if st.last_message_id < w.id.getD 0 then _ else st) = st
    rw [if_neg (Nat.not_lt.mpr h)]
  · intro h
    show ((if st.last_message_id < w.id.getD 0 then _ else st) : ClientState).last_message_id = _
      ∧ ((if st.last_message_id < w.id.getD 0 then _ else st) : ClientState).rendered = _
    rw [if_pos h]
    exact ⟨rfl, rfl⟩

/-- C7, witness: both branches at concrete inputs. -/
theorem C7_push_handling_witness :
    clientStep "me" ⟨5, []⟩ (ClientEvent.newMessage ⟨some "a", some "x", none, some 3⟩) = ⟨5, []⟩
    ∧ (clientStep "me" ⟨5, []⟩
        (ClientEvent.newMessage ⟨some "a", some "x", none, some 7⟩)).last_message_id = 7 :=
  ⟨(C7_push_handling "me" ⟨5, []⟩ ⟨some "a", some "x", none, some 3⟩).1 (by decide),
   ((C7_push_handling "me" ⟨5, []⟩ ⟨some "a", some "x", none, some 7⟩).2 (by decide)).1⟩

/-! ### Claim C8 (confirmed) -/

/-- C8.  The client watermark `last_message_id` is monotonically
non-decreasing: no receiver-loop step — push path, poll path, or an ignored
response — ever lowers it. -/
theorem C8_watermark_monotone (self : String) (st : ClientState) (ev : ClientEvent) :
    st.last_message_id ≤ (clientStep self st ev).last_message_id :=
  clientStep_mono self st ev

/-! ### Server lemmas -/

lemma broadcastWrites_split (ext : Ext) (ev : ServerEvent) (pre : List Nat) (d : Nat)
    (post : List Nat) (hpre : ∀ x ∈ pre, ext.dead x = false) (hd : ext.dead d = true) :
    broadcastWrites ext (pre ++ d :: post) ev
      = (pre.map (fun x => (x, ev)), some (SrvError.writeError d)) := by
  induction pre with
  | nil => simp [broadcastWrites, hd]
  | cons x t ih =>
    have hx : ext.dead x = false := hpre x (List.mem_cons_self _ _)
    simp [broadcastWrites, hx, ih (fun y hy => hpre y (List.mem_cons_of_mem _ hy))]

lemma broadcastWrites_all_alive (ext : Ext) (ev : ServerEvent) (handles : List Nat)
    (h : ∀ x ∈ handles, ext.dead x = false) :
    broadcastWrites ext handles ev = (handles.map (fun x => (x, ev)), none) := by
  induction handles with
  | nil => rfl
  | cons x t ih =>
    have hx : ext.dead x = false := h x (List.mem_cons_self _ _)
    simp [broadcastWrites, hx, ih (fun y hy => h y (List.mem_cons_of_mem _ hy))]

lemma dictInsert_of_not_contains (d : List (String × Nat)) (k : String) (v : Nat)
    (h : dictContains d k = false) : dictInsert d k v = d ++ [(k, v)] := by
  simp [dictInsert, h]

lemma cleanup_some_eq_erase (u : String) (R : List (String × Nat)) (hu : u ≠ "") :
    cleanup (some u) R = dictErase R u := by
  by_cases h : dictContains R u = true
  · show (if u ≠ "" ∧ dictContains R u then dictErase R u else R) = dictErase R u
    rw [if_pos ⟨hu, h⟩]
  · show (if u ≠ "" ∧ dictContains R u then dictErase R u else R) = dictErase R u
    rw [if_neg (fun hc => h hc.2)]
    have hall : ∀ p ∈ R, ¬p.1 = u := by
      intro p hp hpu
      exact h (List.any_eq_true.mpr ⟨p, hp, by simp [hpu]⟩)
    exact ((List.filter_eq_self).mpr (fun p hp => by simp [hall p hp])).symm

lemma not_key_of_not_contains (R : List (String × Nat)) (k : String)
    (h : dictContains R k = false) : ∀ p ∈ R, ¬p.1 = k := by
  intro p hp hpk
  have : dictContains R k = true := List.any_eq_true.mpr ⟨p, hp, by simp [hpk]⟩
  rw [h] at this
  cases this

/-! ### Claim C2 (corrected) -/

/-- C2, counterexample.  An unauthenticated session (`username = None`)
sends `poll`: the server answers with a normal poll response carrying the
stored message, raises nothing, and sends no error response — the action is
fully processed instead of being rejected. -/
theorem C2_counterexample :
    (handleAction extLive 7 none (pollMsg (some 0)) dbHello).writes
      = [(7, ServerEvent.pollResp [⟨1, "a", "hello", "t1"⟩])]
    ∧ (handleAction extLive 7 none (pollMsg (some 0)) dbHello).err = none
    ∧ (handleAction extLive 7 none (pollMsg (some 0)) dbHello).state = dbHello
    ∧ ∀ s, (7, ServerEvent.errorResp s)
        ∉ (handleAction extLive 7 none (pollMsg (some 0)) dbHello).writes := by
  refine ⟨by decide, by decide, by decide, ?_⟩
  intro s hmem
  have hw : (handleAction extLive 7 none (pollMsg (some 0)) dbHello).writes
      = [(7, ServerEvent.pollResp [⟨1, "a", "hello", "t1"⟩])] := by decide
  rw [hw, List.mem_singleton] at hmem
  exact ServerEvent.noConfusion (congrArg Prod.snd hmem)

/-- C2, amended.  The server performs no authentication check at all: an
unauthenticated `poll` is processed normally and answered with a poll
response; an unauthenticated `send_message` is attempted without any check
and dies on the database's NOT NULL constraint for the null sender
(terminating the session); only an action outside
register/login/send_message/poll is rejected with the "Unsupported action"
error response. -/
theorem C2_amended (ext : Ext) (conn : Nat) (st : ServerState) (lastid : Option Nat)
    (hconn : ext.dead conn = false) :
    handleAction ext conn none (pollMsg lastid) st
      = ⟨none, st, [(conn, ServerEvent.pollResp
          ((get_messages_after st.db (lastid.getD 0)).map toEntry))], none⟩
    ∧ (∀ content, handleAction ext conn none (sendMsg content) st
        = ⟨none, st, [], some SrvError.dbError⟩)
    ∧ handleAction ext conn none ⟨some "set_status", none, none, none, none⟩ st
        = ⟨none, st, [(conn, ServerEvent.errorResp "Unsupported action")], none⟩ := by
  refine ⟨?_, fun content => rfl, ?_⟩
  · simp [handleAction, pollMsg, send1, hconn]
  · simp [handleAction, send1, hconn]

/-- C2, witness for the amended theorem at a concrete input. -/
theorem C2_amended_witness :
    handleAction extLive 7 none (pollMsg (some 0)) dbHello
      = ⟨none, dbHello, [(7, ServerEvent.pollResp
          ((get_messages_after dbHello.db 0).map toEntry))], none⟩ :=
  (C2_amended extLive 7 dbHello (some 0) rfl).1

/-! ### Claim C3 (corrected) -/

/-- C3, counterexample.  Registry `a ↦ 1, b ↦ 2, c ↦ 3` with handle 2 gone;
`a` sends a message.  Handle 1 gets the broadcast, the write to handle 2
raises, handle 3 never receives the message, handle 2 is still registered —
and even after the dying sender session's `finally` cleanup only `a`'s own
entry is gone while the dead `b ↦ 2` entry remains. -/
theorem C3_counterexample :
    (handleAction extDead2 1 (some "a") (sendMsg "hi")
        ⟨[("a", 1), ("b", 2), ("c", 3)], [], [], 1⟩).writes
      = [(1, ServerEvent.newMessage 1 "a" "hi" "T")]
    ∧ (handleAction extDead2 1 (some "a") (sendMsg "hi")
        ⟨[("a", 1), ("b", 2), ("c", 3)], [], [], 1⟩).err
      = some (SrvError.writeError 2)
    ∧ (∀ w ∈ (handleAction extDead2 1 (some "a") (sendMsg "hi")
        ⟨[("a", 1), ("b", 2), ("c", 3)], [], [], 1⟩).writes, w.1 ≠ 3)
    ∧ ("b", 2) ∈ (handleAction extDead2 1 (some "a") (sendMsg "hi")
        ⟨[("a", 1), ("b", 2), ("c", 3)], [], [], 1⟩).state.clients
    ∧ cleanup (some "a") (handleAction extDead2 1 (some "a") (sendMsg "hi")
        ⟨[("a", 1), ("b", 2), ("c", 3)], [], [], 1⟩).state.clients
      = [("b", 2), ("c", 3)] := by
  decide

/-- C3, amended.  The broadcast loop has no per-handle error handling: when
the registry's handle list splits as `pre ++ d :: post` with every handle in
`pre` alive and `d` dead, exactly the handles in `pre` receive the stored
message, the write to `d` raises (terminating the sending session), the
handles in `post` never receive it, and the registry — including the dead
handle — is left unchanged. -/
theorem C3_broadcast_amended (ext : Ext) (conn : Nat) (u content : String)
    (st : ServerState) (pre : List Nat) (d : Nat) (post : List Nat)
    (hsplit : st.clients.map (fun p => p.2) = pre ++ d :: post)
    (hpre : ∀ x ∈ pre, ext.dead x = false) (hd : ext.dead d = true) :
    handleAction ext conn (some u) (sendMsg content) st
      = ⟨some u,
          { st with db := st.db ++ [⟨st.nextId, u, "ALL", content, ext.clock st.nextId⟩],
                    nextId := st.nextId + 1 },
          pre.map (fun x =>
            (x, ServerEvent.newMessage st.nextId u content (ext.clock st.nextId))),
          some (SrvError.writeError d)⟩ := by
  have hcl : ({ st with
                db := st.db ++ [⟨st.nextId, u, "ALL", content, ext.clock st.nextId⟩],
                nextId := st.nextId + 1 } : ServerState).clients.map (fun p => p.2)
      = pre ++ d :: post := hsplit
  simp only [handleAction, sendMsg, save_message]
  rw [hcl, broadcastWrites_split ext _ pre d post hpre hd]
  exact rfl

/-- C3, witness for the amended theorem at a concrete input. -/
theorem C3_broadcast_amended_witness :
    handleAction extDead2 1 (some "a") (sendMsg "hi")
        ⟨[("a", 1), ("b", 2), ("c", 3)], [], [], 1⟩
      = ⟨some "a", ⟨[("a", 1), ("b", 2), ("c", 3)], [], [⟨1, "a", "ALL", "hi", "T"⟩], 2⟩,
          [(1, ServerEvent.newMessage 1 "a" "hi" "T")], some (SrvError.writeError 2)⟩ :=
  C3_broadcast_amended extDead2 1 "a" "hi" ⟨[("a", 1), ("b", 2), ("c", 3)], [], [], 1⟩
    [1] 2 [3] (by decide) (by decide) (by decide)

/-! ### Claim C4 (corrected) -/

/-- C4, counterexample.  Session 1 (connection 1) logs in as "alice"; then
session 2 (connection 2) logs in as "alice", replacing the registry entry
with handle 2.  When session 1 terminates, its cleanup removes "alice"
anyway — the registry is emptied although the entry's handle 2 is not
session 1's connection 1: the stale session evicts the newer one. -/
theorem C4_counterexample :
    (handleAction extLive 1 none (loginMsg "alice" "pw1")
        ⟨[], [("alice", "pw1")], [], 1⟩).username = some "alice"
    ∧ (handleAction extLive 2 none (loginMsg "alice" "pw1")
        (handleAction extLive 1 none (loginMsg "alice" "pw1")
          ⟨[], [("alice", "pw1")], [], 1⟩).state).state.clients = [("alice", 2)]
    ∧ cleanup (some "alice") [("alice", 2)] = []
    ∧ (2 : Nat) ≠ 1 := by
  decide

/-- C4, amended.  The `finally` cleanup never compares the registry entry's
handle with the terminating session's own connection: for any non-empty
username it removes the username's entry unconditionally (`dictErase`),
whatever handle the entry holds. -/
theorem C4_cleanup_amended (u : String) (R : List (String × Nat)) (hu : u ≠ "") :
    cleanup (some u) R = dictErase R u :=
  cleanup_some_eq_erase u R hu

/-- C4, witness for the amended theorem at a concrete input. -/
theorem C4_cleanup_amended_witness :
    cleanup (some "alice") [("alice", 2)] = dictErase [("alice", 2)] "alice" :=
  C4_cleanup_amended "alice" [("alice", 2)] (by decide)

/-! ### Claim C5 (corrected) -/

/-- C5, counterexample.  One read containing a malformed line followed by a
well-formed poll line: `json.loads` raises on the first line, the session
dies (`err` set, reaching `finally`), and the following poll line is never
handled — no response is written.  The malformed line is not dropped and the
session does not keep reading. -/
theorem C5_counterexample :
    processLines extLive 7 [WireLine.bad, WireLine.ok (pollMsg (some 0))] none dbHello
      = ⟨none, dbHello, [], some SrvError.jsonError⟩ := by
  decide

/-- C5, amended.  Lines of one read are split and handled in sequence, but a
line that is not valid JSON raises (there is no try/except in
`handle_client`): the lines before it are handled and their effects stand,
the exception terminates the session, and the lines after it in the same
read are never processed. -/
theorem C5_lines_amended (ext : Ext) (conn : Nat) (u : Option String) (st : ServerState)
    (good rest : List WireLine)
    (h : (processLines ext conn good u st).err = none) :
    processLines ext conn (good ++ WireLine.bad :: rest) u st
      = { processLines ext conn good u st with err := some SrvError.jsonError } := by
  induction good generalizing u st with
  | nil => rfl
  | cons l t ih =>
    cases l with
    | bad => simp [processLines] at h
    | ok m =>
      rcases hr : (handleAction ext conn u m st).err with _ | e
      · have h2 : (processLines ext conn t
            (handleAction ext conn u m st).username
            (handleAction ext conn u m st).state).err = none := by
          simpa [processLines, hr] using h
        simp only [List.cons_append, List.append_eq, processLines, hr, ih _ _ h2]
      · simp only [processLines, hr] at h
        simp [hr] at h

/-- C5, witness for the amended theorem at a concrete input. -/
theorem C5_lines_amended_witness :
    processLines extLive 7 [WireLine.ok (pollMsg (some 0)), WireLine.bad] none dbHello
      = { processLines extLive 7 [WireLine.ok (pollMsg (some 0))] none dbHello
            with err := some SrvError.jsonError } :=
  C5_lines_amended extLive 7 none dbHello [WireLine.ok (pollMsg (some 0))] [] (by decide)

/-! ### Claim C6 (confirmed) -/

/-- C6.  A `poll` with argument `last_id` is answered — on any state, even
with an empty result, and never with an error — by the single poll response
listing exactly the stored messages with id strictly greater than `last_id`,
sorted ascending by id; concretely, `last_id = 0` against the store
[1, 2, 3] returns exactly [1, 2, 3] ascending and `last_id = 3` returns the
empty list. -/
theorem C6_poll_semantics :
    (∀ (db : List StoredMsg) (lastid : Nat) (m : StoredMsg),
      m ∈ get_messages_after db lastid ↔ m ∈ db ∧ lastid < m.id)
    ∧ (∀ (db : List StoredMsg) (lastid : Nat),
        List.Sorted byId (get_messages_after db lastid))
    ∧ (∀ (ext : Ext) (conn : Nat) (u : Option String) (st : ServerState) (lastid : Nat),
        ext.dead conn = false →
        handleAction ext conn u (pollMsg (some lastid)) st
          = ⟨u, st, [(conn, ServerEvent.pollResp
              ((get_messages_after st.db lastid).map toEntry))], none⟩)
    ∧ get_messages_after store3 0 = store3
    ∧ get_messages_after store3 3 = [] := by
  refine ⟨?_, ?_, ?_, by decide, by decide⟩
  · intro db lastid m
    simp [get_messages_after, List.mem_filter]
  · intro db lastid
    exact List.sorted_insertionSort byId _
  · intro ext conn u st lastid hconn
    simp [handleAction, pollMsg, send1, hconn]

/-- C6, witness: the response branch of the theorem at a concrete input
(empty result set, normal poll response). -/
theorem C6_poll_semantics_witness :
    handleAction extLive 7 none (pollMsg (some 3)) ⟨[], [], store3, 4⟩
      = ⟨none, ⟨[], [], store3, 4⟩, [(7, ServerEvent.pollResp
          ((get_messages_after store3 3).map toEntry))], none⟩ :=
  C6_poll_semantics.2.2.1 extLive 7 none ⟨[], [], store3, 4⟩ 3 rfl

/-! ### Claim C10 (confirmed) -/

/-- C10.  A `poll` object with no `last_id` field is handled exactly like
one with `last_id = 0`, and — since every stored id is positive — the poll
response then carries the entire message history. -/
theorem C10_poll_default (ext : Ext) (conn : Nat) (u : Option String) (st : ServerState)
    (hconn : ext.dead conn = false) (hpos : ∀ m ∈ st.db, 0 < m.id) :
    handleAction ext conn u (pollMsg none) st = handleAction ext conn u (pollMsg (some 0)) st
    ∧ (handleAction ext conn u (pollMsg none) st).writes
        = [(conn, ServerEvent.pollResp ((get_messages_after st.db 0).map toEntry))]
    ∧ ∀ m, m ∈ get_messages_after st.db 0 ↔ m ∈ st.db := by
  refine ⟨rfl, ?_, ?_⟩
  · simp [handleAction, pollMsg, send1, hconn]
  · intro m
    simp only [get_messages_after, List.mem_insertionSort, List.mem_filter,
      decide_eq_true_eq]
    exact ⟨fun hm => hm.1, fun hm => ⟨hm, hpos m hm⟩⟩

/-- C10, witness for the theorem at a concrete input. -/
theorem C10_poll_default_witness :
    handleAction extLive 7 none (pollMsg none) ⟨[], [], store3, 4⟩
      = handleAction extLive 7 none (pollMsg (some 0)) ⟨[], [], store3, 4⟩ :=
  (C10_poll_default extLive 7 none ⟨[], [], store3, 4⟩ rfl (by decide)).1

/-! ### Claim C9 (confirmed) -/

/-- C9.  On a session (connection `c`) that first logs in as `a` and later
successfully logs in as a different name `b` (with neither name in the
registry `R` before, all registered handles and `c` alive, `b` non-empty):
the first login sets the session's username to `a` and registers `a ↦ c`;
the second login sets it to `b` and appends `b ↦ c` while leaving `a ↦ c`
untouched, so a broadcast then writes the event to `c` twice; and the
termination cleanup (run with username `b`) removes only `b`'s entry, so
`a ↦ c` remains in the registry. -/
theorem C9_relogin (ext : Ext) (c : Nat) (R : List (String × Nat))
    (users : List (String × String)) (db : List StoredMsg) (n : Nat)
    (a b pa pb : String)
    (hab : a ≠ b) (hbne : b ≠ "")
    (hRa : dictContains R a = false) (hRb : dictContains R b = false)
    (hva : verify_user ext users a pa = true) (hvb : verify_user ext users b pb = true)
    (hc : ext.dead c = false)
    (halive : ∀ x ∈ R.map (fun p => p.2), ext.dead x = false) :
    handleAction ext c none (loginMsg a pa) ⟨R, users, db, n⟩
      = ⟨some a, ⟨R ++ [(a, c)], users, db, n⟩, [(c, ServerEvent.loginResp true)], none⟩
    ∧ handleAction ext c (some a) (loginMsg b pb) ⟨R ++ [(a, c)], users, db, n⟩
      = ⟨some b, ⟨R ++ [(a, c), (b, c)], users, db, n⟩,
          [(c, ServerEvent.loginResp true)], none⟩
    ∧ (∀ ev, (broadcastWrites ext ((R ++ [(a, c), (b, c)]).map (fun p => p.2)) ev).1
        = (R.map (fun p => p.2)).map (fun x => (x, ev)) ++ [(c, ev), (c, ev)])
    ∧ cleanup (some b) (R ++ [(a, c), (b, c)]) = R ++ [(a, c)] := by
  have hcont2 : dictContains (R ++ [(a, c)]) b = false := by
    simp only [dictContains, List.any_append, Bool.or_eq_false_iff]
    exact ⟨hRb, by simpa using hab⟩
  refine ⟨?_, ?_, ?_, ?_⟩
  · simp [handleAction, loginMsg, hva, send1, hc, dictInsert_of_not_contains R a c hRa]
  · simp [handleAction, loginMsg, hvb, send1, hc,
      dictInsert_of_not_contains _ b c hcont2, List.append_assoc]
  · intro ev
    have hmap : (R ++ [(a, c), (b, c)]).map (fun p => p.2)
        = R.map (fun p => p.2) ++ [c, c] := by simp
    have halive2 : ∀ x ∈ R.map (fun p => p.2) ++ [c, c], ext.dead x = false := by
      intro x hx
      rcases List.mem_append.mp hx with hx | hx
      · exact halive x hx
      · rcases hx with _ | ⟨_, hx⟩
        · exact hc
        · rcases hx with _ | ⟨_, hx⟩
          · exact hc
          · cases hx
    rw [hmap, broadcastWrites_all_alive ext ev _ halive2, List.map_append]
    exact rfl
  · rw [cleanup_some_eq_erase b _ hbne]
    show List.filter _ _ = _
    rw [List.filter_append]
    have h1 : R.filter (fun p => decide ¬(p.1 = b)) = R :=
      (List.filter_eq_self).mpr
        (fun p hp => by simp [not_key_of_not_contains R b hRb p hp])
    have h2 : List.filter (fun p => decide ¬(p.1 = b)) [(a, c), (b, c)] = [(a, c)] := by
      simp [List.filter, hab]
    rw [h1, h2]

/-- C9, witness for the theorem at a concrete input. -/
theorem C9_relogin_witness :
    cleanup (some "B") [("A", 5), ("B", 5)] = [("A", 5)] :=
  (C9_relogin extLive 5 [] [("A", "x"), ("B", "y")] [] 1 "A" "B" "x" "y"
    (by decide) (by decide) rfl rfl (by decide) (by decide) rfl (by simp)).2.2.2

end ChatApp
